import Mathlib

/-!
# webby: a verification development

A shallow embedding of `webby.go` (package `webby`):

* `SetCors`, over a model of `net/http`'s `Header` (`Get`, `Set`, key canonicalisation);
* `NewHTTPServer` and `RegisterHandler`, with the registration function of `http.ServeMux`
  taken as a parameter that keeps its documented contract;
* `StartListener`, as a small-step machine with two execution paths (the caller's path and the
  serve goroutine), driven by an explicit schedule, with the results of the library calls
  `ListenAndServe`, `Shutdown` and `Close` supplied by the environment.

Conventions of the machine: every statement of `StartListener` is one move; a blocking library
call is two moves, the call and its return; `log.Fatalf` ends the process, after which nothing
moves and no deferred function runs; the clock is a natural number of nanoseconds that only the
action `tick` advances; the caller's context is cancelled by the action `cancelCtx`. The trace
records the operations in the order in which they happen.
-/

namespace Webby

/-! ## `net/http` headers -/

/-- Go's `http.Header`, a `map[string][]string`: `none` is an absent key. -/
abbrev Header := String → Option (List String)

/-- The empty header map. -/
def Header.empty : Header := fun _ => none

/-- Bytes allowed in a header field name (`validHeaderFieldByte` of `net/textproto`): the token
characters of RFC 7230, given by their codes. -/
def validHeaderFieldByte (c : Char) : Bool :=
  let n := c.toNat
  (48 ≤ n && n ≤ 57) || (65 ≤ n && n ≤ 90) || (97 ≤ n && n ≤ 122) ||
    n = 33 || n = 35 || n = 36 || n = 37 || n = 38 || n = 39 || n = 42 || n = 43 ||
    n = 45 || n = 46 || n = 94 || n = 95 || n = 96 || n = 124 || n = 126

/-- The case-fixing loop of `canonicalMIMEHeaderKey`: the first letter and every letter after a
hyphen are upper-cased, all other letters lower-cased. -/
def canonLoop : Bool → List Char → List Char
  | _, [] => []
  | upper, c :: cs =>
    let c1 :=
      if upper && decide (97 ≤ c.toNat) && decide (c.toNat ≤ 122) then Char.ofNat (c.toNat - 32)
      else if !upper && decide (65 ≤ c.toNat) && decide (c.toNat ≤ 90) then Char.ofNat (c.toNat + 32)
      else c
    c1 :: canonLoop (c1.toNat = 45) cs

/-- Go's `textproto.CanonicalMIMEHeaderKey`: a key holding a byte that is not a token character
is returned unchanged, any other key is put in canonical case. -/
def CanonicalMIMEHeaderKey (s : String) : String :=
  if s.data.all validHeaderFieldByte then String.mk (canonLoop true s.data) else s

/-- Go's `Header.Get`: the first value stored under the canonical form of `key`, or the empty
string when there is none. -/
def Header.Get (h : Header) (key : String) : String :=
  match h (CanonicalMIMEHeaderKey key) with
  | some (v :: _) => v
  | _ => ""

/-- Go's `Header.Set`: the entry under the canonical form of `key` becomes the single value
`value`, replacing what was there. -/
def Header.Set (h : Header) (key value : String) : Header :=
  fun k => if k = CanonicalMIMEHeaderKey key then some [value] else h k

/-- The part of `*http.Request` that `SetCors` reads. -/
structure Request where
  Method : String
  Header : Header

/-- An `http.ResponseWriter`, seen through the header map that `w.Header()` returns. -/
structure ResponseWriter where
  header : Header

/-- `SetCors` (webby.go, lines 72-80). -/
def SetCors (w : ResponseWriter) (r : Request) : ResponseWriter :=
  let origin := r.Header.Get "Origin"
  let w1 : ResponseWriter := ⟨w.header.Set "Access-Control-Allow-Origin" origin⟩
  if r.Method = "OPTIONS" then
    let w2 : ResponseWriter := ⟨w1.header.Set "Access-Control-Allow-Credentials" "true"⟩
    let w3 : ResponseWriter := ⟨w2.header.Set "Access-Control-Allow-Methods" "GET,POST"⟩
    ⟨w3.header.Set "Access-Control-Allow-Headers" "Content-Type, X-CSRF-Token, Authorization"⟩
  else
    w1

/-! ## The server -/

/-- A Go `error` value; the nil error is `none` in `Option GoError`. -/
inductive GoError
  | ErrServerClosed
  | other (msg : String)
  deriving DecidableEq, Repr

/-- A Go `chan error`, unbuffered: whether it has been closed, and the values sent on it. -/
structure Chan where
  closed : Bool
  sent : List (Option GoError)
  deriving DecidableEq, Repr

/-- The result of `make(chan error)`. -/
def Chan.make : Chan := ⟨false, []⟩

/-- A handler function value `func(http.ResponseWriter, *http.Request)`, named by an identifier. -/
abbrev HandlerFunc := Nat

/-- What a registration on an `http.ServeMux` panics with. -/
inductive MuxPanic
  | invalidPattern
  | nilHandler
  | multipleRegistrations (pattern : String)
  deriving DecidableEq, Repr

/-- Go's `http.ServeMux`, seen as its table from pattern to handler. -/
structure ServeMux where
  m : String → Option HandlerFunc

/-- Go's `http.NewServeMux()`. -/
def NewServeMux : ServeMux := ⟨fun _ => none⟩

/-- The registration function of the library, `(*http.ServeMux).HandleFunc`. The package
`net/http` is not part of the repository, so the function is a parameter: it gives the mux that
the call leaves behind and the panic the call ended in, if it ended in one. -/
structure MuxLib where
  HandleFunc : ServeMux → String → Option HandlerFunc → ServeMux × Option MuxPanic

/-- What the documentation of `ServeMux.Handle` promises, in every release: a registration that
returns has put the handler under the pattern and has left the other patterns alone, and a
registration for a pattern that already has a handler panics and leaves the mux as it was. -/
def MuxLib.Documented (lib : MuxLib) : Prop :=
  (∀ mux p h, (lib.HandleFunc mux p h).2 = none →
    (lib.HandleFunc mux p h).1.m p = h ∧
      ∀ q, q ≠ p → (lib.HandleFunc mux p h).1.m q = mux.m q) ∧
  (∀ mux p h, (mux.m p).isSome = true →
    (lib.HandleFunc mux p h).2.isSome = true ∧ (lib.HandleFunc mux p h).1 = mux)

/-- Modelled from the library, which is not under `src/`: the registration of the Go 1.21 mux
(`serveMux121.handleFunc` and `serveMux121.handle` of `net/http`, the mux of every release up to
1.21 and of later ones under `GODEBUG=httpmuxgo121=1`). It panics on a nil handler, on the empty
pattern and on a pattern that already has a handler, each time before it touches the table, and
otherwise adds the entry. It stands for the library only in the concrete runs on the pattern
`/ping`, which every release accepts. -/
def HandleFunc121 (mux : ServeMux) (pattern : String) (handler : Option HandlerFunc) :
    ServeMux × Option MuxPanic :=
  match handler with
  | none => (mux, some .nilHandler)
  | some h =>
    if pattern = "" then (mux, some .invalidPattern)
    else if (mux.m pattern).isSome then (mux, some (.multipleRegistrations pattern))
    else (⟨fun p => if p = pattern then some h else mux.m p⟩, none)

/-- The library with the Go 1.21 mux. -/
def mux121 : MuxLib := ⟨HandleFunc121⟩

/-- What the `Handler` field of the `http.Server` points to: nothing, or the `ServeMux` held in
the `router` field of the `HTTPServer` that owns the listener. -/
inductive HandlerRef
  | nil
  | router
  deriving DecidableEq, Repr

/-- Go's `http.Server`: the three fields the constructor sets, and the run-time state that a
struct literal leaves at its zero value (no open listener, not shutting down). -/
structure Server where
  Addr : String
  Handler : HandlerRef
  IdleTimeout : Int
  openListeners : Nat
  inShutdown : Bool

/-- The struct `HTTPServer` (webby.go, lines 14-20). -/
structure HTTPServer where
  Slug : String
  Address : String
  Done : Chan
  router : ServeMux
  listener : Option Server

/-- Conversion of a Go integer to the 64-bit `time.Duration`, a count of nanoseconds. -/
def toDuration (n : Int) : Int := (n + 2 ^ 63) % 2 ^ 64 - 2 ^ 63

/-- `setListener` (webby.go, lines 29-31). -/
def HTTPServer.setListener (s : HTTPServer) (l : Server) : HTTPServer :=
  { s with listener := some l }

/-- `NewHTTPServer` (webby.go, lines 23-27). -/
def NewHTTPServer (description address : String) (idleConnectionTimeout : Int) : HTTPServer :=
  let s : HTTPServer :=
    { Slug := description, Address := address, Done := Chan.make, router := NewServeMux,
      listener := none }
  s.setListener
    { Addr := address, Handler := .router, IdleTimeout := toDuration idleConnectionTimeout,
      openListeners := 0, inShutdown := false }

/-- The route table the listener dispatches on: the one its `Handler` field points to. -/
def HTTPServer.servingTable (s : HTTPServer) : Option (String → Option HandlerFunc) :=
  match s.listener with
  | some l => match l.Handler with
    | .router => some s.router.m
    | .nil => none
  | none => none

/-- `RegisterHandler` (webby.go, lines 34-36): the call of `s.router.HandleFunc`, whose panic
propagates. The result is the server the call leaves behind, and the panic if there was one. -/
def HTTPServer.RegisterHandler (s : HTTPServer) (lib : MuxLib) (path : String)
    (handlerfn : Option HandlerFunc) : HTTPServer × Option MuxPanic :=
  ({ s with router := (lib.HandleFunc s.router path handlerfn).1 },
    (lib.HandleFunc s.router path handlerfn).2)

/-! ## `StartListener` -/

/-- A `context.Context`: the background context, the context handed to `StartListener` by its
caller, or a context with a deadline under a parent. -/
inductive Context
  | background
  | caller
  | withDeadline (parent : Context) (deadline : Int)
  deriving DecidableEq, Repr

/-- Go's `context.WithTimeout(parent, timeout)`, called at time `now` (nanoseconds): the deadline
is `now + timeout`. -/
def Context.WithTimeout (parent : Context) (now : Nat) (timeout : Int) : Context :=
  .withDeadline parent (now + timeout)

/-- Whether a context is done at time `now`, given whether the caller's context has been
cancelled: a context with a deadline is done once its parent is, or once the deadline is
reached (the timer is taken to fire at the deadline, never before it). -/
def Context.expired (callerCancelled : Bool) (now : Nat) : Context → Bool
  | .background => false
  | .caller => callerCancelled
  | .withDeadline parent deadline =>
    parent.expired callerCancelled now || decide (deadline ≤ (now : Int))

/-- Whether a context descends from the caller's context. -/
def Context.derivedFromCaller : Context → Bool
  | .background => false
  | .caller => true
  | .withDeadline parent _ => parent.derivedFromCaller

/-- What the library calls made by `StartListener` return, and the `timeout` argument. -/
structure Env where
  listenErr : Option GoError
  shutdownErr : Option GoError
  closeErr : Option GoError
  timeout : Int

/-- The observable operations of one `StartListener` invocation. -/
inductive Event
  | goServe
  | listenCall
  | listenReturn (err : Option GoError)
  | ctxDone
  | withTimeout (c : Context)
  | shutdownCall (c : Context) (now : Nat)
  | shutdownReturn (err : Option GoError)
  | closeCall
  | closeReturn (err : Option GoError)
  | fatalf (format : String) (arg : GoError)
  | closeDone
  | panic (msg : String)
  | cancel
  deriving DecidableEq, Repr

/-- Where the calling path of `StartListener` stands (webby.go, lines 44-65). -/
inductive MainPc
  | start
  | waitCtx
  | mkTimeout
  | callShutdown (c : Context)
  | inShutdown
  | callClose (err : GoError)
  | inClose (err : GoError)
  | fatalf (err : GoError)
  | dead
  | closeDone
  | panicking
  | crashed
  | deferred
  | returned
  deriving DecidableEq, Repr

/-- Where the goroutine of lines 44-48 stands. -/
inductive ServePc
  | notStarted
  | ready
  | inListen
  | fatalf (err : GoError)
  | dead
  | finished
  deriving DecidableEq, Repr

/-- Who moves next: the calling path, the serve goroutine, the owner of the caller's context
(who cancels it), or the clock (which advances by `d` nanoseconds). -/
inductive Action
  | main
  | serve
  | cancelCtx
  | tick (d : Nat)
  deriving DecidableEq, Repr

/-- The state of one `StartListener` invocation. -/
structure State where
  srv : HTTPServer
  mainPc : MainPc
  servePc : ServePc
  ctxCancelled : Bool
  now : Nat
  exited : Bool
  panicked : Bool
  trace : List Event

/-- The state in which `StartListener` is entered. -/
def State.init (srv : HTTPServer) : State :=
  { srv := srv, mainPc := .start, servePc := .notStarted, ctxCancelled := false, now := 0,
    exited := false, panicked := false, trace := [] }

/-- The condition of line 45: `err != nil && err != http.ErrServerClosed`. -/
def listenFatal : Option GoError → Option GoError
  | some .ErrServerClosed => none
  | some e => some e
  | none => none

/-- One move of the calling path. A `close` of a closed channel panics: the deferred `cancel`
runs, then the process crashes. -/
def mainStep (env : Env) (s : State) : State :=
  match s.mainPc with
  | .start =>
    { s with mainPc := .waitCtx, servePc := .ready, trace := s.trace ++ [.goServe] }
  | .waitCtx =>
    if s.ctxCancelled then { s with mainPc := .mkTimeout, trace := s.trace ++ [.ctxDone] }
    else s
  | .mkTimeout =>
    let c := Context.WithTimeout .background s.now env.timeout
    { s with mainPc := .callShutdown c, trace := s.trace ++ [.withTimeout c] }
  | .callShutdown c =>
    { s with mainPc := .inShutdown, trace := s.trace ++ [.shutdownCall c s.now] }
  | .inShutdown =>
    match env.shutdownErr with
    | some err =>
      { s with mainPc := .callClose err, trace := s.trace ++ [.shutdownReturn (some err)] }
    | none => { s with mainPc := .closeDone, trace := s.trace ++ [.shutdownReturn none] }
  | .callClose err => { s with mainPc := .inClose err, trace := s.trace ++ [.closeCall] }
  | .inClose err =>
    match env.closeErr with
    | some e => { s with mainPc := .fatalf err, trace := s.trace ++ [.closeReturn (some e)] }
    | none => { s with mainPc := .closeDone, trace := s.trace ++ [.closeReturn none] }
  | .fatalf err =>
    { s with mainPc := .dead, exited := true,
             trace := s.trace ++ [.fatalf (s.srv.Slug ++ " forced shutdown failed:%+s") err] }
  | .dead => s
  | .closeDone =>
    if s.srv.Done.closed then
      { s with mainPc := .panicking, trace := s.trace ++ [.panic "close of closed channel"] }
    else
      { s with srv := { s.srv with Done := { s.srv.Done with closed := true } },
               mainPc := .deferred, trace := s.trace ++ [.closeDone] }
  | .panicking =>
    { s with mainPc := .crashed, panicked := true, trace := s.trace ++ [.cancel] }
  | .crashed => s
  | .deferred => { s with mainPc := .returned, trace := s.trace ++ [.cancel] }
  | .returned => s

/-- One move of the serve goroutine. -/
def serveStep (env : Env) (s : State) : State :=
  match s.servePc with
  | .notStarted => s
  | .ready => { s with servePc := .inListen, trace := s.trace ++ [.listenCall] }
  | .inListen =>
    match listenFatal env.listenErr with
    | some err =>
      { s with servePc := .fatalf err, trace := s.trace ++ [.listenReturn env.listenErr] }
    | none => { s with servePc := .finished, trace := s.trace ++ [.listenReturn env.listenErr] }
  | .fatalf err =>
    { s with servePc := .dead, exited := true,
             trace := s.trace ++ [.fatalf "http listen:%+s" err] }
  | .dead => s
  | .finished => s

/-- One step of the invocation; nothing moves once the process has exited. -/
def step (env : Env) (s : State) (a : Action) : State :=
  if s.exited || s.panicked then s
  else
    match a with
    | .main => mainStep env s
    | .serve => serveStep env s
    | .cancelCtx => { s with ctxCancelled := true }
    | .tick d => { s with now := s.now + d }

/-- The state reached from `s` under a schedule. -/
def runFrom (env : Env) (s : State) (sched : List Action) : State :=
  sched.foldl (step env) s

/-- `StartListener` (webby.go, lines 42-65) on the server `srv`, under a schedule. -/
def StartListener (srv : HTTPServer) (env : Env) (sched : List Action) : State :=
  runFrom env (State.init srv) sched

/-- How often `close(s.Done)` has been executed. -/
def doneCloses (tr : List Event) : Nat := tr.count .closeDone

/-- The schedule that drives an invocation to its end: the caller's context is cancelled, the
calling path gets the moves it needs, then the serve goroutine. -/
def completion : List Action :=
  .cancelCtx :: (List.replicate 9 .main ++ List.replicate 3 .serve)

/-! ### Reading a trace -/

/-- The event is a call of `Shutdown`. -/
def Event.isShutdownCall : Event → Bool
  | .shutdownCall _ _ => true
  | _ => false

/-- The event is a return of `Shutdown`. -/
def Event.isShutdownReturn : Event → Bool
  | .shutdownReturn _ => true
  | _ => false

/-- The event is a call of `Close`. -/
def Event.isCloseCall : Event → Bool
  | .closeCall => true
  | _ => false

/-- The event is a return of `Close`. -/
def Event.isCloseReturn : Event → Bool
  | .closeReturn _ => true
  | _ => false

/-- The event is a call of `log.Fatalf`. -/
def Event.isFatalf : Event → Bool
  | .fatalf _ _ => true
  | _ => false

/-- A return event carries the result the environment fixed for that call. -/
def Event.retOk (env : Env) : Event → Bool
  | .shutdownReturn e => decide (e = env.shutdownErr)
  | .closeReturn e => decide (e = env.closeErr)
  | .listenReturn e => decide (e = env.listenErr)
  | _ => true

/-- Every return event of a trace carries the result the environment fixed. -/
def retsOk (env : Env) (tr : List Event) : Bool := tr.all (Event.retOk env)

/-- Some event of the trace is a call of `log.Fatalf`. -/
def fatals (tr : List Event) : Bool := tr.any Event.isFatalf

/-- What a trace says about the shutdown sequence. -/
structure Flags where
  shutdownCalled : Bool
  shutdownReturned : Bool
  closeCalled : Bool
  closeReturned : Bool
  closes : Nat
  deriving DecidableEq, Repr

/-- The flags of a trace. -/
def flagsOf (tr : List Event) : Flags :=
  { shutdownCalled := tr.any Event.isShutdownCall
    shutdownReturned := tr.any Event.isShutdownReturn
    closeCalled := tr.any Event.isCloseCall
    closeReturned := tr.any Event.isCloseReturn
    closes := doneCloses tr }

/-- The flags of a trace that got one more event. -/
def Flags.add (f : Flags) (e : Event) : Flags :=
  { shutdownCalled := f.shutdownCalled || e.isShutdownCall
    shutdownReturned := f.shutdownReturned || e.isShutdownReturn
    closeCalled := f.closeCalled || e.isCloseCall
    closeReturned := f.closeReturned || e.isCloseReturn
    closes := f.closes + (if e = .closeDone then 1 else 0) }

/-- The flags the trace has when the calling path stands at a given place. -/
def MainPc.flags (env : Env) : MainPc → Flags
  | .start | .waitCtx | .mkTimeout | .callShutdown _ => ⟨false, false, false, false, 0⟩
  | .inShutdown => ⟨true, false, false, false, 0⟩
  | .callClose _ => ⟨true, true, false, false, 0⟩
  | .inClose _ => ⟨true, true, true, false, 0⟩
  | .fatalf _ | .dead => ⟨true, true, true, true, 0⟩
  | .closeDone | .panicking | .crashed =>
    ⟨true, true, env.shutdownErr.isSome, env.shutdownErr.isSome, 0⟩
  | .deferred | .returned => ⟨true, true, env.shutdownErr.isSome, env.shutdownErr.isSome, 1⟩

/-- The results of the library calls that let the calling path stand at a given place. -/
def MainPc.ok (env : Env) (now : Nat) : MainPc → Prop
  | .callShutdown c => ∃ t0, t0 ≤ now ∧ c = Context.WithTimeout .background t0 env.timeout
  | .callClose err | .inClose err => env.shutdownErr = some err
  | .fatalf err => env.shutdownErr = some err ∧ env.closeErr.isSome = true
  | .dead => env.shutdownErr.isSome = true ∧ env.closeErr.isSome = true
  | .closeDone | .panicking | .crashed | .deferred | .returned =>
    env.shutdownErr = none ∨ env.closeErr = none
  | _ => True

/-- The results of `ListenAndServe` that let the serve goroutine stand at a given place. -/
def ServePc.ok (env : Env) : ServePc → Prop
  | .fatalf err => listenFatal env.listenErr = some err
  | .dead => (listenFatal env.listenErr).isSome = true
  | .finished => listenFatal env.listenErr = none
  | _ => True

/-- The calling path has passed the receive from `ctx.Done()`. -/
def MainPc.pastWait : MainPc → Bool
  | .start | .waitCtx => false
  | _ => true

/-- An upper bound on the moves the calling path still has to make. -/
def MainPc.remaining : MainPc → Nat
  | .start => 9
  | .waitCtx => 8
  | .mkTimeout => 7
  | .callShutdown _ => 6
  | .inShutdown => 5
  | .callClose _ => 4
  | .inClose _ => 3
  | .closeDone => 2
  | .fatalf _ => 1
  | .panicking => 1
  | .deferred => 1
  | .dead => 0
  | .crashed => 0
  | .returned => 0

/-- An upper bound on the moves the serve goroutine still has to make once it exists. -/
def ServePc.remaining : ServePc → Nat
  | .notStarted => 3
  | .ready => 3
  | .inListen => 2
  | .fatalf _ => 1
  | .dead => 0
  | .finished => 0

/-- The invariant of an invocation entered on the server `srv`, whatever the state of its `Done`
channel. -/
structure Inv (srv : HTTPServer) (env : Env) (s : State) : Prop where
  slug : s.srv.Slug = srv.Slug
  sent : s.srv.Done.sent = srv.Done.sent
  closed : s.srv.Done.closed
    = (srv.Done.closed || decide (s.mainPc = .deferred ∨ s.mainPc = .returned))
  wasOpen : s.mainPc = .deferred ∨ s.mainPc = .returned → srv.Done.closed = false
  wasClosed : s.mainPc = .panicking ∨ s.mainPc = .crashed → srv.Done.closed = true
  panic : s.panicked = decide (s.mainPc = .crashed)
  exit : s.exited = decide (s.mainPc = .dead ∨ s.servePc = .dead)
  flags : flagsOf s.trace = s.mainPc.flags env
  mainOk : s.mainPc.ok env s.now
  serveOk : s.servePc.ok env
  waited : s.mainPc.pastWait = true → s.ctxCancelled = true
  spawned : s.mainPc = .start ↔ s.servePc = .notStarted
  calls : ∀ c t, Event.shutdownCall c t ∈ s.trace →
    t ≤ s.now ∧ ∃ t0, t0 ≤ t ∧ c = Context.WithTimeout .background t0 env.timeout
  rets : retsOk env s.trace = true
  fatal : fatals s.trace = s.exited

/-! ## Concrete inputs -/

/-- A request with method `OPTIONS` and `Origin: http://example.com`. -/
def preflightRequest : Request :=
  ⟨"OPTIONS", Header.empty.Set "Origin" "http://example.com"⟩

/-- A request with the lower-case method `options` and `Origin: http://example.com`. -/
def lowerCaseRequest : Request :=
  ⟨"options", Header.empty.Set "Origin" "http://example.com"⟩

/-- A response writer that already carries CORS headers and one unrelated header. -/
def staleWriter : ResponseWriter :=
  ⟨((Header.empty.Set "Access-Control-Allow-Origin" "http://old.example").Set
      "Access-Control-Allow-Methods" "DELETE").Set "Content-Type" "text/plain"⟩

/-- Two calls of `RegisterHandler` in a row; a panic of the first ends the sequence. -/
def registerTwice (lib : MuxLib) (s : HTTPServer) (pattern : String)
    (h1 h2 : Option HandlerFunc) : HTTPServer × Option MuxPanic :=
  match (s.RegisterHandler lib pattern h1).2 with
  | some e => ((s.RegisterHandler lib pattern h1).1, some e)
  | none => (s.RegisterHandler lib pattern h1).1.RegisterHandler lib pattern h2

/-- The shutdown work is complete: `Shutdown` has been called and has returned, and when it
returned an error, `Close` has been called and has returned without one. -/
def shutdownComplete (env : Env) (tr : List Event) : Prop :=
  (∃ c t, Event.shutdownCall c t ∈ tr) ∧ Event.shutdownReturn env.shutdownErr ∈ tr ∧
    (env.shutdownErr.isSome = true → Event.closeCall ∈ tr ∧ Event.closeReturn none ∈ tr)

/-- A server as a program would build it. -/
def webServer : HTTPServer := NewHTTPServer "web" ":8080" 30000000000

/-- The serve loop ends on shutdown; `Shutdown` and the forced `Close` both fail. -/
def envBothFail : Env :=
  ⟨some .ErrServerClosed, some (.other "context deadline exceeded"),
    some (.other "close tcp: use of closed network connection"), 5000000000⟩

/-- The serve loop ends on shutdown; `Shutdown` fails and the forced `Close` succeeds. -/
def envForced : Env :=
  ⟨some .ErrServerClosed, some (.other "context deadline exceeded"), none, 5000000000⟩

/-- The serve loop ends on shutdown; `Shutdown` succeeds. -/
def envGraceful : Env := ⟨some .ErrServerClosed, none, none, 5000000000⟩

/-- The serve loop fails to bind; `Shutdown` succeeds. -/
def envBindFails : Env :=
  ⟨some (.other "listen tcp :8080: bind: address already in use"), none, none, 5000000000⟩

/-- As `envGraceful`, with a timeout of one nanosecond. -/
def envTiny : Env := ⟨some .ErrServerClosed, none, none, 1⟩

/-- The calling path enters and the invocation is driven to its end. -/
def fullRun : List Action := .main :: completion

/-- The server `web` after a first, graceful invocation of `StartListener` has returned: its
`Done` channel is closed. -/
def usedServer : HTTPServer := (StartListener webServer envGraceful fullRun).srv

/-- The calling path enters, the context fires, and the clock advances by a microsecond
between the creation of the shutdown context (line 52) and the call of `Shutdown` (line 57). -/
def slowRun : List Action := [.main, .cancelCtx, .main, .main, .tick 1000, .main]

/-! ## Theorems -/

/-! ### Canonical keys -/

theorem canon_origin : CanonicalMIMEHeaderKey "Origin" = "Origin" := by decide

theorem canon_allow_origin :
    CanonicalMIMEHeaderKey "Access-Control-Allow-Origin" = "Access-Control-Allow-Origin" := by
  decide

theorem canon_allow_credentials :
    CanonicalMIMEHeaderKey "Access-Control-Allow-Credentials"
      = "Access-Control-Allow-Credentials" := by
  decide

theorem canon_allow_methods :
    CanonicalMIMEHeaderKey "Access-Control-Allow-Methods" = "Access-Control-Allow-Methods" := by
  decide

theorem canon_allow_headers :
    CanonicalMIMEHeaderKey "Access-Control-Allow-Headers" = "Access-Control-Allow-Headers" := by
  decide

/-! ### `SetCors` -/

/-- The response header map after `SetCors`, case of a pre-flight (`OPTIONS`) request. -/
theorem SetCors_options (w : ResponseWriter) (r : Request) (h : r.Method = "OPTIONS") (k : String) :
    (SetCors w r).header k =
      if k = "Access-Control-Allow-Headers" then
        some ["Content-Type, X-CSRF-Token, Authorization"]
      else if k = "Access-Control-Allow-Methods" then some ["GET,POST"]
      else if k = "Access-Control-Allow-Credentials" then some ["true"]
      else if k = "Access-Control-Allow-Origin" then some [r.Header.Get "Origin"]
      else w.header k := by
  simp [SetCors, h, Header.Set, canon_allow_origin, canon_allow_credentials,
    canon_allow_methods, canon_allow_headers]

/-- The response header map after `SetCors`, case of any other request. -/
theorem SetCors_other (w : ResponseWriter) (r : Request) (h : r.Method ≠ "OPTIONS") (k : String) :
    (SetCors w r).header k =
      if k = "Access-Control-Allow-Origin" then some [r.Header.Get "Origin"] else w.header k := by
  simp [SetCors, h, Header.Set, canon_allow_origin]

/-- `Header.Get "Origin"` is the first value stored under `Origin`, or the empty string. -/
theorem Get_origin (h : Header) : h.Get "Origin" = ((h "Origin").getD []).headD "" := by
  unfold Header.Get
  rw [canon_origin]
  rcases h "Origin" with _ | (_ | ⟨v, vs⟩) <;> rfl

/-- C5: after `SetCors`, whatever the request and the response headers before the call, the
response header `Access-Control-Allow-Origin` holds exactly one value, the request's `Origin`
value: the first value stored under `Origin`, or the empty string when there is none. -/
theorem SetCors_mirrors_origin (w : ResponseWriter) (r : Request) :
    (SetCors w r).header "Access-Control-Allow-Origin" = some [r.Header.Get "Origin"] ∧
    r.Header.Get "Origin" = ((r.Header "Origin").getD []).headD "" := by
  refine ⟨?_, Get_origin _⟩
  by_cases h : r.Method = "OPTIONS"
  · rw [SetCors_options w r h]; simp
  · rw [SetCors_other w r h]; simp

/-- C6: for a request whose method is exactly `OPTIONS`, after `SetCors` the response carries
`Access-Control-Allow-Credentials: true`, `Access-Control-Allow-Methods: GET,POST` and
`Access-Control-Allow-Headers: Content-Type, X-CSRF-Token, Authorization`, next to
`Access-Control-Allow-Origin` equal to the request's `Origin`. -/
theorem SetCors_preflight (w : ResponseWriter) (r : Request) (h : r.Method = "OPTIONS") :
    (SetCors w r).header "Access-Control-Allow-Credentials" = some ["true"] ∧
    (SetCors w r).header "Access-Control-Allow-Methods" = some ["GET,POST"] ∧
    (SetCors w r).header "Access-Control-Allow-Headers"
      = some ["Content-Type, X-CSRF-Token, Authorization"] ∧
    (SetCors w r).header "Access-Control-Allow-Origin" = some [r.Header.Get "Origin"] := by
  refine ⟨?_, ?_, ?_, ?_⟩ <;> rw [SetCors_options w r h] <;> simp

/-- The scenario of the specification: `Origin: http://example.com`, method `OPTIONS`. -/
theorem SetCors_preflight_witness :
    preflightRequest.Method = "OPTIONS" ∧
    preflightRequest.Header.Get "Origin" = "http://example.com" ∧
    (SetCors staleWriter preflightRequest).header "Access-Control-Allow-Credentials"
      = some ["true"] ∧
    (SetCors staleWriter preflightRequest).header "Access-Control-Allow-Methods"
      = some ["GET,POST"] ∧
    (SetCors staleWriter preflightRequest).header "Access-Control-Allow-Headers"
      = some ["Content-Type, X-CSRF-Token, Authorization"] ∧
    (SetCors staleWriter preflightRequest).header "Access-Control-Allow-Origin"
      = some [preflightRequest.Header.Get "Origin"] :=
  ⟨by decide, by decide, SetCors_preflight staleWriter preflightRequest (by decide)⟩

/-- C10: for a request whose method is not exactly `OPTIONS`, `SetCors` leaves every response
header other than `Access-Control-Allow-Origin` as it was, the three other CORS headers
included; for an `OPTIONS` request it leaves every header other than the four CORS headers as it
was. -/
theorem SetCors_frame (w : ResponseWriter) (r : Request) :
    (r.Method ≠ "OPTIONS" →
      ∀ k : String, k ≠ "Access-Control-Allow-Origin" → (SetCors w r).header k = w.header k) ∧
    (r.Method = "OPTIONS" →
      ∀ k : String, k ≠ "Access-Control-Allow-Origin" → k ≠ "Access-Control-Allow-Credentials" →
        k ≠ "Access-Control-Allow-Methods" → k ≠ "Access-Control-Allow-Headers" →
        (SetCors w r).header k = w.header k) := by
  constructor
  · intro h k hk
    rw [SetCors_other w r h, if_neg hk]
  · intro h k h1 h2 h3 h4
    rw [SetCors_options w r h, if_neg h4, if_neg h3, if_neg h2, if_neg h1]

/-- The frame property at the lower-case method `options` (allow-methods kept) and at an
`OPTIONS` request (an unrelated header kept). -/
theorem SetCors_frame_witness :
    lowerCaseRequest.Method ≠ "OPTIONS" ∧
    (SetCors staleWriter lowerCaseRequest).header "Access-Control-Allow-Methods"
      = some ["DELETE"] ∧
    (SetCors staleWriter lowerCaseRequest).header "Access-Control-Allow-Credentials" = none ∧
    (SetCors staleWriter preflightRequest).header "Content-Type" = some ["text/plain"] :=
  ⟨by decide,
   ((SetCors_frame staleWriter lowerCaseRequest).1 (by decide)
      "Access-Control-Allow-Methods" (by decide)).trans (by decide),
   ((SetCors_frame staleWriter lowerCaseRequest).1 (by decide)
      "Access-Control-Allow-Credentials" (by decide)).trans (by decide),
   ((SetCors_frame staleWriter preflightRequest).2 (by decide)
      "Content-Type" (by decide) (by decide) (by decide) (by decide)).trans (by decide)⟩

/-! ### `NewHTTPServer` and `RegisterHandler` -/

/-- A value in the range of a 64-bit integer is kept by the conversion to `time.Duration`. -/
theorem toDuration_eq (n : Int) (h1 : -2 ^ 63 ≤ n) (h2 : n < 2 ^ 63) : toDuration n = n := by
  unfold toDuration
  omega

/-- C8: `NewHTTPServer` returns an unstarted server: `Slug` is the description, `Address` the
address, `Done` an open channel on which nothing was sent, the route table is empty, and the
listener has `Addr` equal to the address, the server's own route table as its handler,
`IdleTimeout` equal to the given integer as a count of nanoseconds, no open listener and no
shutdown in progress. -/
theorem NewHTTPServer_unstarted (description address : String) (idleConnectionTimeout : Int)
    (h1 : -2 ^ 63 ≤ idleConnectionTimeout) (h2 : idleConnectionTimeout < 2 ^ 63) :
    (NewHTTPServer description address idleConnectionTimeout).Slug = description ∧
    (NewHTTPServer description address idleConnectionTimeout).Address = address ∧
    (NewHTTPServer description address idleConnectionTimeout).Done = ⟨false, []⟩ ∧
    (∀ p, (NewHTTPServer description address idleConnectionTimeout).router.m p = none) ∧
    (NewHTTPServer description address idleConnectionTimeout).servingTable
      = some (NewHTTPServer description address idleConnectionTimeout).router.m ∧
    (NewHTTPServer description address idleConnectionTimeout).listener
      = some ⟨address, .router, idleConnectionTimeout, 0, false⟩ := by
  refine ⟨rfl, rfl, rfl, fun _ => rfl, rfl, ?_⟩
  simp [NewHTTPServer, HTTPServer.setListener, toDuration_eq _ h1 h2]

/-- The constructor at `("web", ":8080", 30000000000)`. -/
theorem NewHTTPServer_unstarted_witness :
    (-2 ^ 63 ≤ (30000000000 : Int) ∧ (30000000000 : Int) < 2 ^ 63) ∧
    webServer.Slug = "web" ∧ webServer.Address = ":8080" ∧ webServer.Done = ⟨false, []⟩ ∧
    (∀ p, webServer.router.m p = none) ∧
    webServer.servingTable = some webServer.router.m ∧
    webServer.listener = some ⟨":8080", .router, 30000000000, 0, false⟩ :=
  ⟨by decide, NewHTTPServer_unstarted "web" ":8080" 30000000000 (by decide) (by decide)⟩

theorem mux121_documented : mux121.Documented := by
  constructor
  · intro mux p h hret
    cases h with
    | none => simp [mux121, HandleFunc121] at hret
    | some f =>
      by_cases hp : p = ""
      · simp [mux121, HandleFunc121, hp] at hret
      · by_cases hx : (mux.m p).isSome = true
        · simp [mux121, HandleFunc121, hp, hx] at hret
        · refine ⟨by simp [mux121, HandleFunc121, hp, hx], fun q hq => ?_⟩
          simp [mux121, HandleFunc121, hp, hx, hq]
  · intro mux p h hx
    cases h with
    | none => exact ⟨rfl, rfl⟩
    | some f =>
      by_cases hp : p = ""
      · simp [mux121, HandleFunc121, hp]
      · simp [mux121, HandleFunc121, hp, hx]

/-- C7, as stated, fails: on a fresh server the first `RegisterHandler` for the pattern `/ping`
returns, the second one panics with "multiple registrations", and the table still maps `/ping`
to the first handler. -/
theorem RegisterHandler_twice_panics :
    (webServer.RegisterHandler mux121 "/ping" (some 1)).2 = none ∧
    (registerTwice mux121 webServer "/ping" (some 1) (some 2)).2
      = some (.multipleRegistrations "/ping") ∧
    (registerTwice mux121 webServer "/ping" (some 1) (some 2)).1.router.m "/ping" = some 1 := by
  decide

/-- C7, amended: for every library that keeps the documented contract of `ServeMux.Handle`,
when `RegisterHandler(pattern, h1)` returns, the route table maps the pattern to `h1` and every
other pattern is as it was; a following `RegisterHandler(pattern, h2)` panics and leaves the
route table as it was, still mapping the pattern to `h1`: the first registration for a pattern
stands. -/
theorem RegisterHandler_first_stands (lib : MuxLib) (hlib : lib.Documented) (s : HTTPServer)
    (pattern : String) (h1 h2 : HandlerFunc)
    (hfirst : (s.RegisterHandler lib pattern (some h1)).2 = none) :
    (s.RegisterHandler lib pattern (some h1)).1.router.m pattern = some h1 ∧
    (∀ p, p ≠ pattern →
      (s.RegisterHandler lib pattern (some h1)).1.router.m p = s.router.m p) ∧
    ((s.RegisterHandler lib pattern (some h1)).1.RegisterHandler lib pattern (some h2)).2.isSome
      = true ∧
    (∀ p, ((s.RegisterHandler lib pattern (some h1)).1.RegisterHandler lib pattern
        (some h2)).1.router.m p = (s.RegisterHandler lib pattern (some h1)).1.router.m p) ∧
    (registerTwice lib s pattern (some h1) (some h2)).2.isSome = true ∧
    (registerTwice lib s pattern (some h1) (some h2)).1.router.m pattern = some h1 := by
  obtain ⟨hreg, hdup⟩ := hlib
  have hret : (lib.HandleFunc s.router pattern (some h1)).2 = none := hfirst
  obtain ⟨hm, hframe⟩ := hreg s.router pattern (some h1) hret
  have hm1 : (s.RegisterHandler lib pattern (some h1)).1.router.m pattern = some h1 := hm
  have hsome : ((s.RegisterHandler lib pattern (some h1)).1.router.m pattern).isSome = true := by
    rw [hm1]; rfl
  obtain ⟨hpanic, hsame⟩ := hdup (s.RegisterHandler lib pattern (some h1)).1.router pattern
    (some h2) hsome
  have htable : ∀ p, ((s.RegisterHandler lib pattern (some h1)).1.RegisterHandler lib pattern
      (some h2)).1.router.m p = (s.RegisterHandler lib pattern (some h1)).1.router.m p := by
    intro p
    show (lib.HandleFunc (s.RegisterHandler lib pattern (some h1)).1.router pattern
      (some h2)).1.m p = _
    rw [hsame]
  have htwice : registerTwice lib s pattern (some h1) (some h2)
      = (s.RegisterHandler lib pattern (some h1)).1.RegisterHandler lib pattern (some h2) := by
    simp only [registerTwice, hfirst]
  refine ⟨hm1, hframe, hpanic, htable, ?_, ?_⟩
  · rw [htwice]; exact hpanic
  · rw [htwice, htable]; exact hm1

/-- The pattern `/ping` registered twice on a fresh server, with the Go 1.21 mux. -/
theorem RegisterHandler_first_stands_witness :
    mux121.Documented ∧
    (webServer.RegisterHandler mux121 "/ping" (some 1)).2 = none ∧
    (webServer.RegisterHandler mux121 "/ping" (some 1)).1.router.m "/ping" = some 1 ∧
    (registerTwice mux121 webServer "/ping" (some 1) (some 2)).2.isSome = true ∧
    (registerTwice mux121 webServer "/ping" (some 1) (some 2)).1.router.m "/ping" = some 1 := by
  have h := RegisterHandler_first_stands mux121 mux121_documented webServer "/ping" 1 2
    (by decide)
  exact ⟨mux121_documented, by decide, h.1, h.2.2.2.2.1, h.2.2.2.2.2⟩

/-! ### The invariant of `StartListener` -/

theorem inv_init (srv : HTTPServer) (env : Env) : Inv srv env (State.init srv) := by
  constructor <;> simp [State.init, flagsOf, MainPc.flags, MainPc.ok, ServePc.ok,
    MainPc.pastWait, doneCloses, retsOk, fatals]

theorem retsOk_snoc (env : Env) (tr : List Event) (e : Event) :
    retsOk env (tr ++ [e]) = (retsOk env tr && e.retOk env) := by
  simp [retsOk, List.all_append]

theorem fatals_snoc (tr : List Event) (e : Event) :
    fatals (tr ++ [e]) = (fatals tr || e.isFatalf) := by
  simp [fatals, List.any_append]

theorem flagsOf_snoc (tr : List Event) (e : Event) :
    flagsOf (tr ++ [e]) = (flagsOf tr).add e := by
  simp [flagsOf, Flags.add, doneCloses, List.count_append, List.count_singleton]

theorem inv_main (srv : HTTPServer) (env : Env) (s : State) (h : Inv srv env s) :
    Inv srv env (mainStep env s) := by
  obtain ⟨sv, mpc, spc, cc, now, ex, pan, tr⟩ := s
  obtain ⟨h1, h2, h3, h3a, h3b, h4, h5, h6, h7, h8, h9, h11, h10, h12, h13⟩ := h
  simp only at h1 h2 h3 h3a h3b h4 h5 h6 h7 h8 h9 h10 h11 h12 h13
  cases mpc <;> simp only [mainStep] <;> (try split) <;> constructor <;>
    first
    | (intro c t hm
       first
       | exact h10 c t hm
       | (rcases List.mem_append.1 hm with hm | hm
          · exact h10 c t hm
          · simp at hm
            try (obtain ⟨rfl, rfl⟩ := hm; exact ⟨le_refl _, h7⟩)))
    | (clear h10
       simp_all [flagsOf_snoc, Flags.add, MainPc.flags, MainPc.ok, ServePc.ok,
        MainPc.pastWait, Event.isShutdownCall, Event.isShutdownReturn,
        Event.isCloseCall, Event.isCloseReturn, retsOk_snoc, fatals_snoc, Event.retOk,
        Event.isFatalf]
       try exact ⟨_, le_refl _, rfl⟩)

theorem inv_serve (srv : HTTPServer) (env : Env) (s : State) (h : Inv srv env s) :
    Inv srv env (serveStep env s) := by
  obtain ⟨sv, mpc, spc, cc, now, ex, pan, tr⟩ := s
  obtain ⟨h1, h2, h3, h3a, h3b, h4, h5, h6, h7, h8, h9, h11, h10, h12, h13⟩ := h
  simp only at h1 h2 h3 h3a h3b h4 h5 h6 h7 h8 h9 h10 h11 h12 h13
  cases spc <;> simp only [serveStep] <;> (try split) <;> constructor <;>
    first
    | (intro c t hm
       first
       | exact h10 c t hm
       | (rcases List.mem_append.1 hm with hm | hm
          · exact h10 c t hm
          · simp at hm))
    | (clear h10
       simp_all [flagsOf_snoc, Flags.add, ServePc.ok, Event.isShutdownCall,
        Event.isShutdownReturn, Event.isCloseCall, Event.isCloseReturn, retsOk_snoc,
        fatals_snoc, Event.retOk, Event.isFatalf])

theorem inv_step (srv : HTTPServer) (env : Env) (s : State) (a : Action)
    (h : Inv srv env s) : Inv srv env (step env s a) := by
  unfold step
  split
  · exact h
  · cases a with
    | main => exact inv_main srv env s h
    | serve => exact inv_serve srv env s h
    | cancelCtx =>
      obtain ⟨h1, h2, h3, h3a, h3b, h4, h5, h6, h7, h8, h9, h11, h10, h12, h13⟩ := h
      exact ⟨h1, h2, h3, h3a, h3b, h4, h5, h6, h7, h8, fun _ => rfl, h11, h10, h12, h13⟩
    | tick d =>
      obtain ⟨h1, h2, h3, h3a, h3b, h4, h5, h6, h7, h8, h9, h11, h10, h12, h13⟩ := h
      refine ⟨h1, h2, h3, h3a, h3b, h4, h5, h6, ?_, h8, h9, h11, ?_, h12, h13⟩
      · revert h7
        cases s.mainPc <;> simp only [MainPc.ok] <;> try exact id
        rintro ⟨t0, ht, hc⟩
        exact ⟨t0, Nat.le_trans ht (Nat.le_add_right _ _), hc⟩
      · intro c t hm
        obtain ⟨ht, hc⟩ := h10 c t hm
        exact ⟨Nat.le_trans ht (Nat.le_add_right _ _), hc⟩

theorem inv_runFrom (srv : HTTPServer) (env : Env) (sched : List Action) (s : State)
    (h : Inv srv env s) : Inv srv env (runFrom env s sched) := by
  induction sched generalizing s with
  | nil => exact h
  | cons a rest ih => exact ih _ (inv_step srv env s a h)

theorem inv_run (srv : HTTPServer) (env : Env) (sched : List Action) :
    Inv srv env (StartListener srv env sched) :=
  inv_runFrom srv env sched _ (inv_init srv env)

/-- In an invocation entered with `Done` open nothing panics. -/
theorem no_panic (srv : HTTPServer) (env : Env) (s : State) (h : Inv srv env s)
    (hopen : srv.Done.closed = false) :
    s.panicked = false ∧ s.mainPc ≠ .panicking ∧ s.mainPc ≠ .crashed := by
  have hc := h.wasClosed
  have hp := h.panic
  rw [hopen] at hc
  refine ⟨?_, fun hx => ?_, fun hx => ?_⟩
  · rw [hp]
    exact decide_eq_false (fun hx => by simpa using hc (Or.inr hx))
  · simpa using hc (Or.inl hx)
  · simpa using hc (Or.inr hx)

/-! ### Progress -/

theorem runFrom_append (env : Env) (s : State) (xs ys : List Action) :
    runFrom env s (xs ++ ys) = runFrom env (runFrom env s xs) ys := by
  simp [runFrom, List.foldl_append]

theorem mainRemaining_le (pc : MainPc) : pc.remaining ≤ 9 := by
  cases pc <;> simp [MainPc.remaining]

theorem serveRemaining_le (pc : ServePc) : pc.remaining ≤ 3 := by
  cases pc <;> simp [ServePc.remaining]

/-- Nothing moves once the process is gone. -/
theorem runFrom_halted (env : Env) (s : State) (sched : List Action)
    (h : (s.exited || s.panicked) = true) : runFrom env s sched = s := by
  induction sched with
  | nil => rfl
  | cons a rest ih =>
    have : step env s a = s := by simp only [step, h, if_true]
    simpa [runFrom, this] using ih

theorem step_running (env : Env) (s : State) (a : Action) (h1 : s.exited = false)
    (h2 : s.panicked = false) :
    step env s a =
      match a with
      | .main => mainStep env s
      | .serve => serveStep env s
      | .cancelCtx => { s with ctxCancelled := true }
      | .tick d => { s with now := s.now + d } := by
  simp [step, h1, h2]

theorem main_decreases (srv : HTTPServer) (env : Env) (s : State) (h : Inv srv env s)
    (hc : s.ctxCancelled = true) :
    (mainStep env s).mainPc.remaining ≤ s.mainPc.remaining - 1 ∧
      (mainStep env s).ctxCancelled = true := by
  obtain ⟨sv, mpc, spc, cc, now, ex, pan, tr⟩ := s
  simp only at hc
  subst hc
  cases mpc <;> simp only [mainStep] <;> (try split) <;>
    simp_all [MainPc.remaining]

/-- The calling path, once the context has fired, needs at most as many moves as its bound
says. -/
theorem main_progress (srv : HTTPServer) (env : Env) (n : Nat) (s : State) (h : Inv srv env s)
    (hc : s.ctxCancelled = true) :
    (runFrom env s (List.replicate n .main)).exited = true ∨
      (runFrom env s (List.replicate n .main)).mainPc.remaining ≤ s.mainPc.remaining - n := by
  induction n generalizing s with
  | zero => right; simp [runFrom]
  | succ n ih =>
    cases hex : s.exited
    · cases hpan : s.panicked
      · have hstep : step env s .main = mainStep env s := step_running env s .main hex hpan
        have hinv := inv_main srv env s h
        obtain ⟨hd, hc1⟩ := main_decreases srv env s h hc
        have := ih (mainStep env s) hinv hc1
        simp only [List.replicate_succ, runFrom, List.foldl_cons, hstep] at this ⊢
        rcases this with h1 | h1
        · exact Or.inl h1
        · right; omega
      · right
        rw [runFrom_halted env s _ (by simp [hpan])]
        have hp := h.panic
        rw [hpan] at hp
        have hcr : s.mainPc = .crashed := of_decide_eq_true hp.symm
        rw [hcr]; simp [MainPc.remaining]
    · left
      rw [runFrom_halted env s _ (by simp [hex])]; exact hex

theorem serve_decreases (srv : HTTPServer) (env : Env) (s : State) (h : Inv srv env s)
    (hm : s.mainPc ≠ .start) :
    (serveStep env s).servePc.remaining ≤ s.servePc.remaining - 1 ∧
      (serveStep env s).mainPc = s.mainPc := by
  have hsp := h.spawned
  obtain ⟨sv, mpc, spc, cc, now, ex, pan, tr⟩ := s
  simp only at hm hsp
  cases spc <;> simp only [serveStep] <;> (try split) <;>
    simp_all [ServePc.remaining]

/-- The serve goroutine, once it exists, needs at most as many moves as its bound says. -/
theorem serve_progress (srv : HTTPServer) (env : Env) (n : Nat) (s : State) (h : Inv srv env s)
    (hm : s.mainPc ≠ .start) :
    (runFrom env s (List.replicate n .serve)).exited = true ∨
      (runFrom env s (List.replicate n .serve)).panicked = true ∨
      ((runFrom env s (List.replicate n .serve)).servePc.remaining ≤ s.servePc.remaining - n ∧
        (runFrom env s (List.replicate n .serve)).mainPc = s.mainPc) := by
  induction n generalizing s with
  | zero => right; right; simp [runFrom]
  | succ n ih =>
    cases hex : s.exited
    · cases hpan : s.panicked
      · have hstep : step env s .serve = serveStep env s := step_running env s .serve hex hpan
        have hinv := inv_serve srv env s h
        obtain ⟨hd, hc1⟩ := serve_decreases srv env s h hm
        have := ih (serveStep env s) hinv (by rw [hc1]; exact hm)
        simp only [List.replicate_succ, runFrom, List.foldl_cons, hstep] at this ⊢
        rcases this with h1 | h1 | ⟨h1, h2⟩
        · exact Or.inl h1
        · exact Or.inr (Or.inl h1)
        · right; right; exact ⟨by omega, h2.trans hc1⟩
      · right; left
        rw [runFrom_halted env s _ (by simp [hpan])]; exact hpan
    · left
      rw [runFrom_halted env s _ (by simp [hex])]; exact hex

/-- Every execution, continued by the completing schedule, comes to its end: the process is
gone, or both paths are finished. -/
theorem completion_terminal (srv : HTTPServer) (env : Env) (sched : List Action) :
    (StartListener srv env (sched ++ completion)).exited = true ∨
      (StartListener srv env (sched ++ completion)).panicked = true ∨
      ((StartListener srv env (sched ++ completion)).mainPc = .returned ∧
        (StartListener srv env (sched ++ completion)).servePc = .finished) := by
  have h0 := inv_run srv env sched
  unfold StartListener at h0 ⊢
  rw [runFrom_append]
  generalize runFrom env (State.init srv) sched = s at h0 ⊢
  cases hex : s.exited
  · cases hpan : s.panicked
    · have hstep : step env s .cancelCtx = { s with ctxCancelled := true } :=
        step_running env s .cancelCtx hex hpan
      have h1 := inv_step srv env s .cancelCtx h0
      rw [hstep] at h1
      have e1 : runFrom env s completion =
          runFrom env (runFrom env { s with ctxCancelled := true } (List.replicate 9 .main))
            (List.replicate 3 .serve) := by
        rw [← runFrom_append]
        simp only [completion, runFrom, List.foldl_cons, hstep]
      rw [e1]
      have h2 := inv_runFrom srv env (List.replicate 9 .main) _ h1
      have p2 := main_progress srv env 9 _ h1 rfl
      generalize runFrom env { s with ctxCancelled := true } (List.replicate 9 .main) = s2
        at h2 p2 ⊢
      have hm : s2.exited = true ∨ s2.panicked = true ∨ s2.mainPc = .returned := by
        rcases p2 with p2 | p2
        · exact Or.inl p2
        · have hb := mainRemaining_le s.mainPc
          have hz : s2.mainPc.remaining = 0 := by
            simp only at p2; omega
          have hx := h2.exit
          have hp := h2.panic
          revert hz hx hp
          cases s2.mainPc <;> simp [MainPc.remaining]
          · exact fun hx _ => Or.inl hx
          · exact fun _ hp => Or.inr hp
      rcases hm with hm | hm | hm
      · left; rw [runFrom_halted env s2 _ (by simp [hm])]; exact hm
      · right; left; rw [runFrom_halted env s2 _ (by simp [hm])]; exact hm
      · have h3 := inv_runFrom srv env (List.replicate 3 .serve) _ h2
        have p3 := serve_progress srv env 3 _ h2 (by rw [hm]; simp)
        generalize runFrom env s2 (List.replicate 3 .serve) = s3 at h3 p3 ⊢
        rcases p3 with p3 | p3 | ⟨p3, p4⟩
        · exact Or.inl p3
        · exact Or.inr (Or.inl p3)
        · have hb := serveRemaining_le s2.servePc
          have hz : s3.servePc.remaining = 0 := by omega
          have hx := h3.exit
          rw [p4, hm] at hx
          revert hz hx
          cases s3.servePc <;> simp [ServePc.remaining]
          · exact fun hx => Or.inl hx
          · exact fun _ => Or.inr (Or.inr (p4.trans hm))
    · right; left
      rw [runFrom_halted env s _ (by simp [hpan])]; exact hpan
  · left
    rw [runFrom_halted env s _ (by simp [hex])]; exact hex

/-! ### Reading flags as events -/

theorem shutdownCalled_iff (tr : List Event) :
    (flagsOf tr).shutdownCalled = true ↔ ∃ c t, Event.shutdownCall c t ∈ tr := by
  simp only [flagsOf, List.any_eq_true]
  constructor
  · rintro ⟨x, hx, hp⟩
    cases x <;> simp [Event.isShutdownCall] at hp
    exact ⟨_, _, hx⟩
  · rintro ⟨c, t, h⟩
    exact ⟨_, h, rfl⟩

theorem shutdownReturned_iff (tr : List Event) :
    (flagsOf tr).shutdownReturned = true ↔ ∃ e, Event.shutdownReturn e ∈ tr := by
  simp only [flagsOf, List.any_eq_true]
  constructor
  · rintro ⟨x, hx, hp⟩
    cases x <;> simp [Event.isShutdownReturn] at hp
    exact ⟨_, hx⟩
  · rintro ⟨e, h⟩
    exact ⟨_, h, rfl⟩

theorem closeCalled_iff (tr : List Event) :
    (flagsOf tr).closeCalled = true ↔ Event.closeCall ∈ tr := by
  simp only [flagsOf, List.any_eq_true]
  constructor
  · rintro ⟨x, hx, hp⟩
    cases x <;> simp [Event.isCloseCall] at hp
    exact hx
  · intro h
    exact ⟨_, h, rfl⟩

theorem closeReturned_iff (tr : List Event) :
    (flagsOf tr).closeReturned = true ↔ ∃ e, Event.closeReturn e ∈ tr := by
  simp only [flagsOf, List.any_eq_true]
  constructor
  · rintro ⟨x, hx, hp⟩
    cases x <;> simp [Event.isCloseReturn] at hp
    exact ⟨_, hx⟩
  · rintro ⟨e, h⟩
    exact ⟨_, h, rfl⟩

theorem fatals_iff (tr : List Event) :
    fatals tr = true ↔ ∃ f e, Event.fatalf f e ∈ tr := by
  simp only [fatals, List.any_eq_true]
  constructor
  · rintro ⟨x, hx, hp⟩
    cases x <;> simp [Event.isFatalf] at hp
    exact ⟨_, _, hx⟩
  · rintro ⟨f, e, h⟩
    exact ⟨_, h, rfl⟩

theorem shutdownReturn_eq (env : Env) (tr : List Event) (h : retsOk env tr = true)
    (e : Option GoError) (hm : Event.shutdownReturn e ∈ tr) : e = env.shutdownErr := by
  have := (List.all_eq_true.1 h) _ hm
  simpa [Event.retOk] using this

theorem closeReturn_eq (env : Env) (tr : List Event) (h : retsOk env tr = true)
    (e : Option GoError) (hm : Event.closeReturn e ∈ tr) : e = env.closeErr := by
  have := (List.all_eq_true.1 h) _ hm
  simpa [Event.retOk] using this

theorem closeDone_mem_iff (tr : List Event) : Event.closeDone ∈ tr ↔ 0 < doneCloses tr := by
  simp [doneCloses, List.count_pos_iff]

/-- A step only appends to the trace. -/
theorem step_trace (env : Env) (s : State) (a : Action) :
    ∃ evs, (step env s a).trace = s.trace ++ evs := by
  unfold step
  split
  · exact ⟨[], by simp⟩
  · cases a with
    | main =>
      simp only [mainStep]
      split <;> (try split) <;> first | exact ⟨_, rfl⟩ | exact ⟨[], by simp⟩
    | serve =>
      simp only [serveStep]
      split <;> (try split) <;> first | exact ⟨_, rfl⟩ | exact ⟨[], by simp⟩
    | cancelCtx => exact ⟨[], by simp⟩
    | tick d => exact ⟨[], by simp⟩

theorem step_trace_mono (env : Env) (s : State) (a : Action) (e : Event)
    (h : e ∈ s.trace) : e ∈ (step env s a).trace := by
  obtain ⟨evs, hevs⟩ := step_trace env s a
  rw [hevs]
  exact List.mem_append_left _ h

/-- Only the move of the calling path at line 64 closes `Done`. -/
theorem closes_step (env : Env) (s : State) (a : Action)
    (h : doneCloses s.trace < doneCloses (step env s a).trace) :
    s.mainPc = .closeDone ∧ s.exited = false := by
  unfold step at h
  split at h
  · omega
  · rename_i hex
    have hex2 : s.exited = false := by
      cases hx : s.exited <;> simp [hx] at hex ⊢
    refine ⟨?_, hex2⟩
    cases a with
    | main =>
      simp only [mainStep] at h
      split at h <;> (try split at h) <;>
        first
        | omega
        | assumption
        | (simp [doneCloses, List.count_append, List.count_cons] at h)
    | serve =>
      simp only [serveStep] at h
      split at h <;> (try split at h) <;>
        first
        | omega
        | (simp [doneCloses, List.count_append, List.count_cons] at h)
    | cancelCtx => simp at h
    | tick d => simp at h

/-- The step that closes `Done` finds it open. -/
theorem closes_step_open (env : Env) (s : State) (a : Action)
    (h : doneCloses s.trace < doneCloses (step env s a).trace) :
    s.srv.Done.closed = false := by
  obtain ⟨hpc, hex⟩ := closes_step env s a h
  cases hcl : s.srv.Done.closed
  · rfl
  · exfalso
    unfold step at h
    split at h
    · omega
    · cases a with
      | main =>
        simp [mainStep, hpc, hcl, doneCloses, List.count_append, List.count_cons] at h
      | serve =>
        simp only [serveStep] at h
        split at h <;> (try split at h) <;>
          first
          | omega
          | (simp [doneCloses, List.count_append, List.count_cons] at h)
      | cancelCtx => simp at h
      | tick d => simp at h

/-- Where the calling path stands at or after line 64, the shutdown work is complete. -/
theorem shutdownComplete_of_pc (srv : HTTPServer) (env : Env) (s : State) (h : Inv srv env s)
    (hp : s.mainPc = .closeDone ∨ s.mainPc = .deferred ∨ s.mainPc = .returned) :
    shutdownComplete env s.trace := by
  have hf := h.flags
  have hok := h.mainOk
  have hr := h.rets
  have f1 : (flagsOf s.trace).shutdownCalled = true := by
    rw [hf]; rcases hp with hp | hp | hp <;> rw [hp] <;> rfl
  have f2 : (flagsOf s.trace).shutdownReturned = true := by
    rw [hf]; rcases hp with hp | hp | hp <;> rw [hp] <;> rfl
  have f3 : (flagsOf s.trace).closeCalled = env.shutdownErr.isSome := by
    rw [hf]; rcases hp with hp | hp | hp <;> rw [hp] <;> rfl
  have f4 : (flagsOf s.trace).closeReturned = env.shutdownErr.isSome := by
    rw [hf]; rcases hp with hp | hp | hp <;> rw [hp] <;> rfl
  have hok2 : env.shutdownErr = none ∨ env.closeErr = none := by
    rcases hp with hp | hp | hp <;> rw [hp] at hok <;> exact hok
  refine ⟨(shutdownCalled_iff _).1 f1, ?_, ?_⟩
  · obtain ⟨e, he⟩ := (shutdownReturned_iff _).1 f2
    rw [← shutdownReturn_eq env _ hr e he]; exact he
  · intro hs
    rw [hs] at f3 f4
    refine ⟨(closeCalled_iff _).1 f3, ?_⟩
    obtain ⟨e, he⟩ := (closeReturned_iff _).1 f4
    have := closeReturn_eq env _ hr e he
    rcases hok2 with h0 | h0
    · rw [h0] at hs; simp at hs
    · rw [h0] at this; rw [← this]; exact he

theorem closes_eq (srv : HTTPServer) (env : Env) (s : State) (h : Inv srv env s) :
    doneCloses s.trace = (s.mainPc.flags env).closes :=
  congrArg Flags.closes h.flags

theorem listenFatal_isSome (err : Option GoError) :
    (listenFatal err).isSome = true ↔ ∃ e, err = some e ∧ e ≠ .ErrServerClosed := by
  rcases err with _ | (_ | m) <;> simp [listenFatal]

theorem StartListener_snoc (srv : HTTPServer) (env : Env) (sched : List Action) (a : Action) :
    StartListener srv env (sched ++ [a]) = step env (StartListener srv env sched) a := by
  simp [StartListener, runFrom, List.foldl_append]

/-- When the serve loop does not end in `log.Fatalf`, an execution driven to its end has the
calling path returned, stopped by its own `log.Fatalf`, or crashed by the panic of line 64. -/
theorem completion_main (srv : HTTPServer) (env : Env) (sched : List Action)
    (hl : listenFatal env.listenErr = none) :
    (StartListener srv env (sched ++ completion)).mainPc = .dead ∨
      (StartListener srv env (sched ++ completion)).mainPc = .crashed ∨
      (StartListener srv env (sched ++ completion)).mainPc = .returned := by
  have ht := inv_run srv env (sched ++ completion)
  have hex := ht.exit
  have hp := ht.panic
  have hsok := ht.serveOk
  rcases completion_terminal srv env sched with hx | hx | ⟨hx, _⟩
  · rw [hx] at hex
    rcases of_decide_eq_true hex.symm with hdead | hdead
    · exact Or.inl hdead
    · rw [hdead] at hsok
      simp only [ServePc.ok] at hsok
      rw [hl] at hsok; simp at hsok
  · rw [hx] at hp
    exact Or.inr (Or.inl (of_decide_eq_true hp.symm))
  · exact Or.inr (Or.inr hx)

theorem mainStep_ne_start (env : Env) (s : State) : (mainStep env s).mainPc ≠ .start := by
  obtain ⟨sv, mpc, spc, cc, now, ex, pan, tr⟩ := s
  cases mpc <;> simp only [mainStep] <;> (try split) <;> simp

/-- Once the calling path has entered, three moves of the serve goroutine end it, whether or not
the caller's context has fired. -/
theorem serve_terminal (srv : HTTPServer) (env : Env) (sched : List Action)
    (hopen : srv.Done.closed = false) :
    (StartListener srv env (sched ++ .main :: List.replicate 3 .serve)).exited = true ∨
      (StartListener srv env (sched ++ .main :: List.replicate 3 .serve)).servePc
        = .finished := by
  have hnp := (no_panic srv env _
    (inv_run srv env (sched ++ .main :: List.replicate 3 .serve)) hopen).1
  have h0 := inv_run srv env sched
  have hnp0 := (no_panic srv env _ h0 hopen).1
  unfold StartListener at h0 hnp hnp0 ⊢
  rw [runFrom_append] at hnp ⊢
  generalize runFrom env (State.init srv) sched = s at h0 hnp hnp0 ⊢
  cases hex : s.exited
  · have hstep : step env s .main = mainStep env s := step_running env s .main hex hnp0
    have h1 := inv_main srv env s h0
    have e1 : runFrom env s (.main :: List.replicate 3 .serve)
        = runFrom env (mainStep env s) (List.replicate 3 .serve) := by
      simp only [runFrom, List.foldl_cons, hstep]
    rw [e1] at hnp ⊢
    have h3 := inv_runFrom srv env (List.replicate 3 .serve) _ h1
    have p3 := serve_progress srv env 3 _ h1 (mainStep_ne_start env s)
    generalize runFrom env (mainStep env s) (List.replicate 3 .serve) = s3 at h3 p3 hnp ⊢
    rcases p3 with p3 | p3 | ⟨p3, _⟩
    · exact Or.inl p3
    · rw [hnp] at p3; simp at p3
    · have hb := serveRemaining_le (mainStep env s).servePc
      have hz : s3.servePc.remaining = 0 := by omega
      have hx := h3.exit
      revert hz hx
      cases s3.servePc <;> simp [ServePc.remaining]
  · left
    rw [runFrom_halted env s _ (by simp [hex])]; exact hex

/-! ### The claims on `StartListener` -/

/-- C1, as stated, fails: the context fires, `Shutdown` and the forced `Close` both return an
error, and the invocation ends in `log.Fatalf` with `Done` never closed. -/
theorem StartListener_done_never_closed :
    (StartListener webServer envBothFail fullRun).ctxCancelled = true ∧
    (StartListener webServer envBothFail fullRun).exited = true ∧
    doneCloses (StartListener webServer envBothFail fullRun).trace = 0 ∧
    (StartListener webServer envBothFail fullRun).srv.Done.closed = false := by
  decide

/-- C1, amended: in an invocation entered with `Done` open, `Done` is closed at most once, it is
closed exactly when one `close(s.Done)` was executed, and it has been closed exactly once when
`StartListener` returns. When `Shutdown` and the forced `Close` both fail, `Done` is never
closed. When `Shutdown` or `Close` succeeds and the serve loop does not end in `log.Fatalf`,
every execution, once the context has fired, runs to the return of `StartListener`, with `Done`
closed exactly once. -/
theorem StartListener_done_closed_once (srv : HTTPServer) (env : Env) (sched : List Action)
    (hopen : srv.Done.closed = false) :
    doneCloses (StartListener srv env sched).trace ≤ 1 ∧
    ((StartListener srv env sched).srv.Done.closed = true ↔
      doneCloses (StartListener srv env sched).trace = 1) ∧
    ((StartListener srv env sched).mainPc = .returned →
      doneCloses (StartListener srv env sched).trace = 1) ∧
    (env.shutdownErr.isSome = true → env.closeErr.isSome = true →
      doneCloses (StartListener srv env sched).trace = 0) ∧
    ((env.shutdownErr = none ∨ env.closeErr = none) → listenFatal env.listenErr = none →
      (StartListener srv env (sched ++ completion)).mainPc = .returned ∧
      (StartListener srv env (sched ++ completion)).ctxCancelled = true ∧
      (StartListener srv env (sched ++ completion)).exited = false ∧
      doneCloses (StartListener srv env (sched ++ completion)).trace = 1) := by
  have h := inv_run srv env sched
  have hc := closes_eq srv env _ h
  have hd := h.closed
  have hok := h.mainOk
  rw [hopen, Bool.false_or] at hd
  refine ⟨?_, ?_, ?_, ?_, ?_⟩
  · rw [hc]; cases (StartListener srv env sched).mainPc <;> simp [MainPc.flags]
  · rw [hc, hd]; cases (StartListener srv env sched).mainPc <;> simp [MainPc.flags]
  · intro hr; rw [hc, hr]; rfl
  · intro h1 h2
    rw [hc]
    revert hok
    cases (StartListener srv env sched).mainPc <;> simp [MainPc.flags, MainPc.ok]
    all_goals
      refine ⟨fun h3 => ?_, fun h3 => ?_⟩
      · rw [h3] at h1; simp at h1
      · rw [h3] at h2; simp at h2
  · intro h1 h2
    have ht := inv_run srv env (sched ++ completion)
    have hct := closes_eq srv env _ ht
    have hex := ht.exit
    have hmok := ht.mainOk
    have hsok := ht.serveOk
    have hw := ht.waited
    have hnp := no_panic srv env _ ht hopen
    have hret : (StartListener srv env (sched ++ completion)).mainPc = .returned := by
      rcases completion_main srv env sched h2 with hdead | hcr | hx
      · rw [hdead] at hmok
        simp only [MainPc.ok] at hmok
        rcases h1 with h1 | h1
        · rw [h1] at hmok; simp at hmok
        · rw [h1] at hmok; simp at hmok
      · exact absurd hcr hnp.2.2
      · exact hx
    refine ⟨hret, ?_, ?_, ?_⟩
    · apply hw; rw [hret]; rfl
    · rw [hex, hret]
      have : (StartListener srv env (sched ++ completion)).servePc ≠ .dead := by
        intro hdead
        rw [hdead] at hsok
        simp only [ServePc.ok] at hsok
        rw [h2] at hsok; simp at hsok
      simp [this]
    · rw [hct, hret]; rfl

/-- A forced shutdown: `Shutdown` fails, `Close` succeeds, `Done` is closed once. -/
theorem StartListener_done_closed_once_witness :
    webServer.Done.closed = false ∧
    (envForced.shutdownErr = none ∨ envForced.closeErr = none) ∧
    listenFatal envForced.listenErr = none ∧
    (StartListener webServer envForced ([.main] ++ completion)).mainPc = .returned ∧
    doneCloses (StartListener webServer envForced ([.main] ++ completion)).trace = 1 := by
  have h := StartListener_done_closed_once webServer envForced [.main] (by decide)
  exact ⟨by decide, by decide, by decide, (h.2.2.2.2 (by decide) (by decide)).1,
    (h.2.2.2.2 (by decide) (by decide)).2.2.2⟩

/-- C2: in every execution of `StartListener`, `Close` is called only after `Shutdown` has
returned a non-nil error, and never when `Shutdown` returned nil; once `Shutdown` has returned a
non-nil error, `Close` has been called after the next move of the calling path, unless the
process was terminated in between by the `log.Fatalf` of the serve goroutine; and in every
execution driven to its end in which the serve loop does not end in `log.Fatalf`, `Shutdown` has
returned and `Close` was called if and only if it returned a non-nil error. -/
theorem StartListener_close_iff_shutdown_failed (srv : HTTPServer) (env : Env)
    (sched : List Action) :
    (Event.closeCall ∈ (StartListener srv env sched).trace →
      ∃ e, Event.shutdownReturn (some e) ∈ (StartListener srv env sched).trace) ∧
    (Event.shutdownReturn none ∈ (StartListener srv env sched).trace →
      Event.closeCall ∉ (StartListener srv env sched).trace) ∧
    (∀ e, Event.shutdownReturn (some e) ∈ (StartListener srv env sched).trace →
      Event.closeCall ∈ (StartListener srv env (sched ++ [.main])).trace ∨
        (StartListener srv env sched).exited = true) ∧
    (listenFatal env.listenErr = none →
      Event.shutdownReturn env.shutdownErr ∈ (StartListener srv env (sched ++ completion)).trace ∧
      (Event.closeCall ∈ (StartListener srv env (sched ++ completion)).trace ↔
        env.shutdownErr.isSome = true)) := by
  have h := inv_run srv env sched
  have hf := h.flags
  have hok := h.mainOk
  have hr := h.rets
  have hpan := h.panic
  -- `Close` called: the calling path is past the return of `Shutdown`, which gave an error
  have key : Event.closeCall ∈ (StartListener srv env sched).trace →
      env.shutdownErr.isSome = true ∧
        ∃ e, Event.shutdownReturn e ∈ (StartListener srv env sched).trace := by
    intro hc
    have f3 := (closeCalled_iff _).2 hc
    have f2 : (flagsOf (StartListener srv env sched).trace).shutdownReturned = true := by
      rw [hf] at f3 ⊢
      revert f3
      cases (StartListener srv env sched).mainPc <;> simp [MainPc.flags]
    refine ⟨?_, (shutdownReturned_iff _).1 f2⟩
    rw [hf] at f3
    revert f3 hok
    cases (StartListener srv env sched).mainPc <;> simp [MainPc.flags, MainPc.ok]
    all_goals (intro h1; simp [h1])
  refine ⟨?_, ?_, ?_, ?_⟩
  · intro hc
    obtain ⟨hs, e, he⟩ := key hc
    have := shutdownReturn_eq env _ hr e he
    cases hE : env.shutdownErr with
    | none => rw [hE] at hs; simp at hs
    | some e1 => exact ⟨e1, by rw [hE] at this; rw [← this]; exact he⟩
  · intro hn hc
    obtain ⟨hs, _⟩ := key hc
    have := shutdownReturn_eq env _ hr none hn
    rw [← this] at hs; simp at hs
  · intro e he
    have hE := shutdownReturn_eq env _ hr _ he
    have f2 := (shutdownReturned_iff _).2 ⟨_, he⟩
    by_cases hcc : Event.closeCall ∈ (StartListener srv env sched).trace
    · left
      rw [StartListener_snoc]
      exact step_trace_mono env _ _ _ hcc
    · have f3 : (flagsOf (StartListener srv env sched).trace).closeCalled = false := by
        cases hb : (flagsOf (StartListener srv env sched).trace).closeCalled
        · rfl
        · exact absurd ((closeCalled_iff _).1 hb) hcc
      cases hex : (StartListener srv env sched).exited
      · left
        rw [StartListener_snoc]
        rw [hf] at f2 f3
        have hnp : (StartListener srv env sched).panicked = false := by
          rw [hpan]
          apply decide_eq_false
          intro hcr
          rw [hcr] at f3
          simp [MainPc.flags, ← hE] at f3
        rw [step_running env _ .main hex hnp]
        revert f2 f3
        generalize StartListener srv env sched = s
        obtain ⟨sv, mpc, spc, cc, now, ex, pan, tr⟩ := s
        cases mpc <;> simp [MainPc.flags, mainStep, ← hE]
      · exact Or.inr rfl
  · intro hl
    have ht := inv_run srv env (sched ++ completion)
    have htf := ht.flags
    have htok := ht.mainOk
    have htr := ht.rets
    have f2 : (flagsOf (StartListener srv env (sched ++ completion)).trace).shutdownReturned
        = true := by
      rw [htf]
      rcases completion_main srv env sched hl with hp | hp | hp <;> rw [hp] <;> rfl
    have f3 : (flagsOf (StartListener srv env (sched ++ completion)).trace).closeCalled
        = env.shutdownErr.isSome := by
      rw [htf]
      rcases completion_main srv env sched hl with hp | hp | hp
      · rw [hp] at htok ⊢
        simp only [MainPc.ok] at htok
        simp [MainPc.flags, htok.1]
      · rw [hp]; rfl
      · rw [hp]; rfl
    constructor
    · obtain ⟨e, he⟩ := (shutdownReturned_iff _).1 f2
      rw [← shutdownReturn_eq env _ htr e he]; exact he
    · rw [← closeCalled_iff, f3]

/-- A graceful shutdown never calls `Close`; a failed one does. -/
theorem StartListener_close_iff_shutdown_failed_witness :
    listenFatal envGraceful.listenErr = none ∧
    Event.closeCall ∉ (StartListener webServer envGraceful ([.main] ++ completion)).trace ∧
    Event.closeCall ∈ (StartListener webServer envForced ([.main] ++ completion)).trace := by
  have h1 := StartListener_close_iff_shutdown_failed webServer envGraceful [.main]
  have h2 := StartListener_close_iff_shutdown_failed webServer envForced [.main]
  exact ⟨by decide, fun hc => absurd ((h1.2.2.2 (by decide)).2.1 hc) (by decide),
    (h2.2.2.2 (by decide)).2.2 (by decide)⟩

/-- C3, as stated, fails: on a server whose `Done` was closed by an earlier invocation, with a
serve loop ending in `http.ErrServerClosed`, a failed `Shutdown` and a successful `Close`,
`close(s.Done)` at line 64 panics and the process crashes, although no `log.Fatalf` was
executed. -/
theorem StartListener_second_invocation_panics :
    usedServer.Done.closed = true ∧
    envForced.listenErr = some .ErrServerClosed ∧
    envForced.closeErr = none ∧
    (StartListener usedServer envForced fullRun).exited = false ∧
    (StartListener usedServer envForced fullRun).panicked = true ∧
    Event.panic "close of closed channel" ∈ (StartListener usedServer envForced fullRun).trace := by
  decide

/-- C3, amended: in every execution the process is terminated by `log.Fatalf` only if the serve
loop returns a non-nil error other than `http.ErrServerClosed`, or `Shutdown` and the forced
`Close` both fail, and exactly when a `log.Fatalf` was executed; with a serve loop ending in nil
or `http.ErrServerClosed` and a successful `Shutdown` or `Close` it is never terminated by
`log.Fatalf`; nothing is ever sent on `Done`. In an invocation entered with `Done` open,
moreover, every execution driven to its end is terminated by `log.Fatalf` if and only if one of
the two holds, a serve loop that returns such an error terminates the process within three moves
of the goroutine, whether or not the context has fired, and nothing panics, so no error reaches
the caller. -/
theorem StartListener_fatal_iff (srv : HTTPServer) (env : Env) (sched : List Action) :
    ((StartListener srv env sched).exited = true →
      (∃ e, env.listenErr = some e ∧ e ≠ .ErrServerClosed) ∨
        (env.shutdownErr ≠ none ∧ env.closeErr ≠ none)) ∧
    ((StartListener srv env sched).exited = true ↔
      ∃ f e, Event.fatalf f e ∈ (StartListener srv env sched).trace) ∧
    ((env.listenErr = none ∨ env.listenErr = some .ErrServerClosed) →
      (env.shutdownErr = none ∨ env.closeErr = none) →
      (StartListener srv env sched).exited = false) ∧
    (StartListener srv env sched).srv.Done.sent = srv.Done.sent ∧
    (srv.Done.closed = false →
      ((StartListener srv env (sched ++ completion)).exited = true ↔
        (∃ e, env.listenErr = some e ∧ e ≠ .ErrServerClosed) ∨
          (env.shutdownErr ≠ none ∧ env.closeErr ≠ none)) ∧
      ((∃ e, env.listenErr = some e ∧ e ≠ .ErrServerClosed) →
        (StartListener srv env (sched ++ .main :: List.replicate 3 .serve)).exited = true) ∧
      (StartListener srv env sched).panicked = false) := by
  have safe : ∀ sch : List Action, (StartListener srv env sch).exited = true →
      (∃ e, env.listenErr = some e ∧ e ≠ .ErrServerClosed) ∨
        (env.shutdownErr ≠ none ∧ env.closeErr ≠ none) := by
    intro sch hx
    have h := inv_run srv env sch
    have hex := h.exit
    have hmok := h.mainOk
    have hsok := h.serveOk
    rw [hx] at hex
    rcases of_decide_eq_true hex.symm with hdead | hdead
    · right
      rw [hdead] at hmok
      simp only [MainPc.ok] at hmok
      refine ⟨fun h0 => ?_, fun h0 => ?_⟩
      · rw [h0] at hmok; simp at hmok
      · rw [h0] at hmok; simp at hmok
    · left
      rw [hdead] at hsok
      exact (listenFatal_isSome _).1 hsok
  have h := inv_run srv env sched
  refine ⟨safe sched, ?_, ?_, h.sent, fun hopen => ⟨⟨safe _, ?_⟩, ?_,
    (no_panic srv env _ h hopen).1⟩⟩
  · rw [← fatals_iff, h.fatal]
  · intro hl hs
    cases hx : (StartListener srv env sched).exited
    · rfl
    · exfalso
      rcases safe sched hx with ⟨e, he, hne⟩ | ⟨h1, h2⟩
      · rcases hl with hl | hl
        · rw [hl] at he; simp at he
        · rw [hl] at he
          injection he with he
          exact hne he.symm
      · rcases hs with h0 | h0
        · exact h1 h0
        · exact h2 h0
  · intro hcond
    have ht := inv_run srv env (sched ++ completion)
    have hmok := ht.mainOk
    have hsok := ht.serveOk
    rcases completion_terminal srv env sched with hx | hx | ⟨hm, hs⟩
    · exact hx
    · rw [(no_panic srv env _ ht hopen).1] at hx; simp at hx
    · exfalso
      rw [hm] at hmok
      rw [hs] at hsok
      simp only [MainPc.ok] at hmok
      simp only [ServePc.ok] at hsok
      rcases hcond with hl | ⟨h1, h2⟩
      · have := (listenFatal_isSome _).2 hl
        rw [hsok] at this; simp at this
      · rcases hmok with h0 | h0
        · exact h1 h0
        · exact h2 h0
  · intro hl
    rcases serve_terminal srv env sched hopen with hx | hfin
    · exact hx
    · exfalso
      have hsok := (inv_run srv env (sched ++ .main :: List.replicate 3 .serve)).serveOk
      rw [hfin] at hsok
      simp only [ServePc.ok] at hsok
      have := (listenFatal_isSome _).2 hl
      rw [hsok] at this; simp at this

/-- On a fresh server a bind failure and a double failure are fatal, a forced shutdown is not
and does not panic. -/
theorem StartListener_fatal_iff_witness :
    webServer.Done.closed = false ∧
    (StartListener webServer envBindFails ([.main] ++ completion)).exited = true ∧
    (StartListener webServer envBothFail ([.main] ++ completion)).exited = true ∧
    (StartListener webServer envForced ([.main] ++ completion)).exited = false ∧
    (StartListener webServer envForced ([.main] ++ completion)).panicked = false := by
  have h1 := StartListener_fatal_iff webServer envBindFails [.main]
  have h2 := StartListener_fatal_iff webServer envBothFail [.main]
  have h3 := StartListener_fatal_iff webServer envForced ([.main] ++ completion)
  exact ⟨by decide, (h1.2.2.2.2 (by decide)).1.2 (Or.inl ⟨_, rfl, by decide⟩),
    (h2.2.2.2.2 (by decide)).1.2 (Or.inr ⟨by decide, by decide⟩),
    h3.2.2.1 (Or.inr rfl) (Or.inr rfl), (h3.2.2.2.2 (by decide)).2.2⟩

/-- C4, as stated, fails: on a server whose `Done` was closed by an earlier invocation, the
state in which `StartListener` is entered has `Done` closed while nothing has happened yet, no
call of `Shutdown` in particular. -/
theorem StartListener_done_closed_at_entry :
    (StartListener usedServer envGraceful []).srv.Done.closed = true ∧
    (StartListener usedServer envGraceful []).trace = [] ∧
    (flagsOf (StartListener usedServer envGraceful []).trace).shutdownCalled = false := by
  decide

/-- C4, amended: in every execution of `StartListener`, once the invocation has executed
`close(s.Done)` the shutdown work is complete: `Shutdown` has been called and has returned and,
when it returned an error, `Close` has been called and has returned; the step that executes
`close(s.Done)` starts in a state in which all of that has already happened and `Done` is still
open; and in an invocation entered with `Done` open there is no reachable state in which `Done`
is closed while the shutdown work is not complete. -/
theorem StartListener_done_after_shutdown (srv : HTTPServer) (env : Env) (sched : List Action)
    (a : Action) :
    (Event.closeDone ∈ (StartListener srv env sched).trace →
      shutdownComplete env (StartListener srv env sched).trace) ∧
    (doneCloses (StartListener srv env sched).trace
        < doneCloses (StartListener srv env (sched ++ [a])).trace →
      shutdownComplete env (StartListener srv env sched).trace ∧
        (StartListener srv env sched).srv.Done.closed = false) ∧
    (srv.Done.closed = false → (StartListener srv env sched).srv.Done.closed = true →
      shutdownComplete env (StartListener srv env sched).trace) := by
  have h := inv_run srv env sched
  have hc := closes_eq srv env _ h
  have hd := h.closed
  refine ⟨?_, ?_, ?_⟩
  · intro hm
    have hpos := (closeDone_mem_iff _).1 hm
    rw [hc] at hpos
    apply shutdownComplete_of_pc srv env _ h
    revert hpos
    cases (StartListener srv env sched).mainPc <;> simp [MainPc.flags]
  · intro hlt
    rw [StartListener_snoc] at hlt
    obtain ⟨hpc, _⟩ := closes_step env _ a hlt
    exact ⟨shutdownComplete_of_pc srv env _ h (Or.inl hpc), closes_step_open env _ a hlt⟩
  · intro hopen hcl
    rw [hopen, Bool.false_or] at hd
    rw [hd] at hcl
    exact shutdownComplete_of_pc srv env _ h (Or.inr (of_decide_eq_true hcl))

/-- A forced shutdown on a fresh server: the ninth move of the calling path closes `Done`, after
`Shutdown` and `Close` have returned. -/
theorem StartListener_done_after_shutdown_witness :
    webServer.Done.closed = false ∧
    doneCloses (StartListener webServer envForced
        ([.main, .cancelCtx] ++ List.replicate 6 .main)).trace
      < doneCloses (StartListener webServer envForced
        (([.main, .cancelCtx] ++ List.replicate 6 .main) ++ [.main])).trace ∧
    shutdownComplete envForced (StartListener webServer envForced
        ([.main, .cancelCtx] ++ List.replicate 6 .main)).trace ∧
    (StartListener webServer envForced fullRun).srv.Done.closed = true ∧
    shutdownComplete envForced (StartListener webServer envForced fullRun).trace := by
  have h := StartListener_done_after_shutdown webServer envForced
    ([.main, .cancelCtx] ++ List.replicate 6 .main) .main
  have h2 := StartListener_done_after_shutdown webServer envForced fullRun .main
  exact ⟨by decide, by decide, (h.2.1 (by decide)).1, by decide,
    h2.2.2 (by decide) (by decide)⟩

/-- C9, as stated, fails: with a timeout of one nanosecond, positive, and a microsecond
elapsing between line 52 and line 57, the context handed to `Shutdown` is already expired when
`Shutdown` is called. -/
theorem StartListener_shutdown_context_expired :
    0 < envTiny.timeout ∧
    (StartListener webServer envTiny slowRun).ctxCancelled = true ∧
    Event.shutdownCall (Context.WithTimeout .background 0 envTiny.timeout) 1000
      ∈ (StartListener webServer envTiny slowRun).trace ∧
    (Context.WithTimeout .background 0 envTiny.timeout).expired true 1000 = true := by
  decide

/-- C9, amended: every call of `Shutdown` made by `StartListener` happens after the caller's
context was cancelled and is handed a timeout context made from the background context with
exactly the supplied timeout, not derived from the caller's context; whether it is expired when
`Shutdown` is called does not depend on the caller's context: its deadline is reached exactly
when at least the timeout has elapsed since it was made, so it is not expired as long as less
than the timeout has elapsed. -/
theorem StartListener_shutdown_context (srv : HTTPServer) (env : Env) (sched : List Action)
    (c : Context) (t : Nat)
    (hcall : Event.shutdownCall c t ∈ (StartListener srv env sched).trace) :
    (StartListener srv env sched).ctxCancelled = true ∧
    c.derivedFromCaller = false ∧
    ∃ t0, t0 ≤ t ∧ c = Context.WithTimeout .background t0 env.timeout ∧
      (∀ cc, c.expired cc t = decide (env.timeout ≤ (t : Int) - t0)) ∧
      ((t : Int) - t0 < env.timeout → c.expired true t = false) := by
  have h := inv_run srv env sched
  have hf := h.flags
  have hw := h.waited
  obtain ⟨_, t0, ht0, hc⟩ := h.calls c t hcall
  have f1 := (shutdownCalled_iff _).2 ⟨c, t, hcall⟩
  have hexp : ∀ cc, c.expired cc t = decide (env.timeout ≤ (t : Int) - t0) := by
    intro cc
    rw [hc]
    simp only [Context.WithTimeout, Context.expired, Bool.false_or]
    congr 1
    apply propext
    constructor <;> intro hh <;> omega
  refine ⟨?_, ?_, t0, ht0, hc, hexp, ?_⟩
  · apply hw
    rw [hf] at f1
    revert f1
    cases (StartListener srv env sched).mainPc <;> simp [MainPc.flags, MainPc.pastWait]
  · rw [hc]; rfl
  · intro hlt
    rw [hexp]
    exact decide_eq_false (by omega)

/-- A graceful shutdown with a timeout of five seconds: the context handed to `Shutdown` is made
from the background context and is not expired at the call. -/
theorem StartListener_shutdown_context_witness :
    Event.shutdownCall (.withDeadline .background 5000000000) 0
      ∈ (StartListener webServer envGraceful fullRun).trace ∧
    (StartListener webServer envGraceful fullRun).ctxCancelled = true ∧
    (Context.withDeadline .background 5000000000).derivedFromCaller = false ∧
    (Context.withDeadline .background 5000000000).expired true 0 = false := by
  have h := StartListener_shutdown_context webServer envGraceful fullRun
    (.withDeadline .background 5000000000) 0 (by decide)
  exact ⟨by decide, h.1, h.2.1, by decide⟩

end Webby
